import Mathlib

/-!
Shallow embedding of `cmd/spread/main.go` from the spread repository.

The command-line entry point parses flags, validates the mutual exclusivity
of the run-mode selectors, derives a session password, compiles the job
filter, loads the project, and either lists jobs or starts a runner campaign.
Effectful external calls (crypto/rand, spread.NewFilter, spread.Load,
Project.Jobs, spread.Start, Runner.Wait, the interrupt signal) are modelled
by a `World` record supplying each call's outcome for this invocation, and
`run` records its observable actions in a `RunTrace`.
-/

namespace Spread

/-- The command-line flag values, one field per `flag.Bool`/`flag.String`/
`flag.Int`/`flag.Int64` variable of `main.go`.  `repeatCount` embeds the Go
flag named `repeat` (a Lean keyword). -/
structure Flags where
  verbose : Bool
  vverbose : Bool
  list : Bool
  pass : String
  reuse : Bool
  reusePid : Int
  resend : Bool
  debug : Bool
  noDebug : Bool
  shell : Bool
  shellBefore : Bool
  shellAfter : Bool
  abend : Bool
  restore : Bool
  discard : Bool
  artifacts : String
  logs : String
  seed : Int
  repeatCount : Int
  garbageCollect : Bool
  download : String

/-- A job as seen by `main.go`: only its `Name` is consumed (printed in list
mode). -/
structure Job where
  Name : String

/-- A compiled filter as returned by `spread.NewFilter`: a predicate over job
identities.  Only its existence matters to `main.go`. -/
structure Filter where
  Matches : Job → Bool

/-- Modelled from the spec: the spread package treats the absence of a filter
(`Options.Filter` left as the nil zero value, because no positional pattern
was given) as matching every job; a compiled filter applies its predicate.
The implementation of this match-all behaviour lives in the spread package,
outside the excerpted source, so it is taken from the spec's words:
"an empty pattern list yields a Filter that matches everything (identity
filter), not an error". -/
def filterMatches (f : Option Filter) (j : Job) : Bool :=
  match f with
  | none => true
  | some flt => flt.Matches j

/-- The `spread.Options` struct populated by `run`, field for field. -/
structure Options where
  Password : String
  Filter : Option Spread.Filter
  Reuse : Bool
  ReusePid : Int
  Resend : Bool
  Debug : Bool
  NoDebug : Bool
  Shell : Bool
  ShellBefore : Bool
  ShellAfter : Bool
  Abend : Bool
  Restore : Bool
  Discard : Bool
  Artifacts : String
  Logs : String
  Seed : Int
  Repeat : Int
  GarbageCollect : Bool

/-- Outcomes of the external, effectful calls made by one invocation of
`run`: the positional arguments left by `flag.Parse`, the bytes delivered by
`crypto/rand.Read` (or its failure), and the results of `spread.NewFilter`,
`spread.Load`, `Project.Jobs`, `spread.Start` and `Runner.Wait`, plus
whether an interrupt signal is delivered during the campaign.  Errors are
`String` messages; a `none` in `waitResult` is a nil error. -/
structure World where
  args : List String
  randRead : Except String (List (Fin 256))
  newFilterResult : Except String Filter
  loadResult : Except String Unit
  jobsResult : Except String (List Job)
  startResult : Except String Unit
  waitResult : Option String
  interrupt : Bool

/-- Observable actions of one invocation of `run`. -/
structure RunTrace where
  newFilterCalled : Bool := false
  optionsBuilt : Option Options := none
  loadCalled : Bool := false
  jobsCalled : Bool := false
  printedJobs : List String := []
  hookInstalled : Bool := false
  hookArg : Option String := none
  startCalled : Bool := false
  startOptions : Option Options := none
  waitCalled : Bool := false
  stopCalled : Bool := false

/-- Return value of `run` (`none` models a nil error) together with its
trace. -/
structure RunResult where
  ret : Option String
  trace : RunTrace

/-- The error message of the run-mode exclusivity check. -/
def modeConflictMsg : String :=
  "cannot have more than one of -debug, -shell, -shell-before/after, -abend, and -restore"

/-- The boolean slice iterated by the exclusivity loop, in source order:
`[]bool{*debug, *shell, *shellBefore || *shellAfter, *abend, *restore}`. -/
def modeList (f : Flags) : List Bool :=
  [f.debug, f.shell, f.shellBefore || f.shellAfter, f.abend, f.restore]

/-- The exclusivity loop of `run`: `other` accumulates whether a previous
selector was set; hitting a set selector while `other` holds is a
conflict. -/
def conflictLoop : List Bool → Bool → Bool
  | [], _ => false
  | b :: rest, other => if b && other then true else conflictLoop rest (other || b)

/-- Whether `run` returns the run-mode conflict error. -/
def modeConflict (f : Flags) : Bool :=
  conflictLoop (modeList f) false

/-- Number of run-mode selectors that are set (`shellBefore || shellAfter`
counting as one selector). -/
def selCount (f : Flags) : Nat :=
  (modeList f).count true

/-- One lowercase hexadecimal digit, as produced by `fmt.Sprintf("%x", ...)`. -/
def hexDigitChar (n : Nat) : Char :=
  if n < 10 then Char.ofNat (48 + n) else Char.ofNat (87 + n)

/-- The two lowercase hex digits of one byte. -/
def hexByte (b : Fin 256) : String :=
  ⟨[hexDigitChar (b.val / 16), hexDigitChar (b.val % 16)]⟩

/-- `fmt.Sprintf("%x", buf)` on a byte slice: concatenated two-digit
lowercase hex encodings. -/
def hexEncode : List (Fin 256) → String
  | [] => ""
  | b :: rest => hexByte b ++ hexEncode rest

/-- The password block of `run`: the `-pass` flag value when non-empty,
otherwise the hex encoding of 8 bytes from `crypto/rand.Read`, failing when
the random source fails. -/
def passwordOf (f : Flags) (w : World) : Except String String :=
  if f.pass = "" then
    match w.randRead with
    | .error e => .error ("cannot generate random password: " ++ e)
    | .ok buf => .ok (hexEncode buf)
  else
    .ok f.pass

/-- The filter block of `run`: `spread.NewFilter(args)` is consulted only
when at least one positional argument is present; otherwise `filter` stays
nil.  The second component records whether `NewFilter` was called. -/
def filterStep (w : World) : Except String (Option Filter) × Bool :=
  if w.args.length > 0 then
    match w.newFilterResult with
    | .error e => (.error e, true)
    | .ok flt => (.ok (some flt), true)
  else
    (.ok none, false)

/-- The `&spread.Options{...}` literal of `run`, field for field. -/
def buildOptions (f : Flags) (password : String) (flt : Option Filter) : Options :=
  { Password := password
    Filter := flt
    Reuse := f.reuse
    ReusePid := f.reusePid
    Resend := f.resend
    Debug := f.debug
    NoDebug := f.noDebug
    Shell := f.shell
    ShellBefore := f.shellBefore
    ShellAfter := f.shellAfter
    Abend := f.abend
    Restore := f.restore
    Discard := f.discard
    Artifacts := f.artifacts
    Logs := f.logs
    Seed := f.seed
    Repeat := f.repeatCount
    GarbageCollect := f.garbageCollect }

/-- The coercion `if options.Discard && options.ReusePid == 0 { options.Reuse
= true }` applied on the non-list path. -/
def discardCoerce (o : Options) : Options :=
  if o.Discard && o.ReusePid == 0 then { o with Reuse := true } else o

/-- The `download` package variable is the pointer returned by
`flag.String`, which is never nil; `run` guards the hook installation on
`download != nil`, i.e. on the pointer, not on the flag's value. -/
def downloadPtr (f : Flags) : Option String :=
  some f.download

/-- The hook-installation block of `run`: when the (never nil) `download`
pointer is non-nil, `project.PreRestoreProject` is set to a closure wrapping
`downloadDir(*download, client)`. -/
def hookPhase (f : Flags) (tr : RunTrace) : RunTrace :=
  match downloadPtr f with
  | none => tr
  | some d => { tr with hookInstalled := true, hookArg := some d }

/-- The tail of `run`: `spread.Start(project, options)`; on success a
goroutine calls `runner.Stop()` upon an interrupt signal, and `run` returns
`runner.Wait()`. -/
def startPhase (w : World) (tr : RunTrace) (options : Options) : RunResult :=
  match w.startResult with
  | .error e =>
    { ret := some e
      trace := { tr with startCalled := true, startOptions := some options } }
  | .ok _ =>
    { ret := w.waitResult
      trace := { tr with
                 startCalled := true
                 startOptions := some options
                 waitCalled := true
                 stopCalled := w.interrupt } }

/-- `run()` of `main.go`, straight-line: exclusivity check, password,
filter, options literal, `spread.Load`, the `-list` branch, the
discard-forces-reuse coercion, hook installation, `spread.Start`,
interrupt-driven `Stop`, and `runner.Wait`. -/
def run (f : Flags) (w : World) : RunResult :=
  if modeConflict f then
    { ret := some modeConflictMsg, trace := {} }
  else
    match passwordOf f w with
    | .error e => { ret := some e, trace := {} }
    | .ok password =>
      match filterStep w with
      | (.error e, called) => { ret := some e, trace := { newFilterCalled := called } }
      | (.ok flt, called) =>
        match w.loadResult with
        | .error e =>
          { ret := some e
            trace := { newFilterCalled := called
                       optionsBuilt := some (buildOptions f password flt)
                       loadCalled := true } }
        | .ok _ =>
          if f.list then
            match w.jobsResult with
            | .error e =>
              { ret := some e
                trace := { newFilterCalled := called
                           optionsBuilt := some (buildOptions f password flt)
                           loadCalled := true
                           jobsCalled := true } }
            | .ok jobs =>
              { ret := none
                trace := { newFilterCalled := called
                           optionsBuilt := some (buildOptions f password flt)
                           loadCalled := true
                           jobsCalled := true
                           printedJobs := jobs.map Job.Name } }
          else
            startPhase w
              (hookPhase f
                { newFilterCalled := called
                  optionsBuilt := some (buildOptions f password flt)
                  loadCalled := true })
              (discardCoerce (buildOptions f password flt))

/-- Result of the `main` function: the process exit code and the lines
written to stderr. -/
structure MainResult where
  exitCode : Nat
  stderrOut : List String

/-- `main()` of `main.go`: on a non-nil error from `run`, print
`error: <msg>` to stderr and exit 1; otherwise return normally (exit 0). -/
def mainFn (f : Flags) (w : World) : MainResult :=
  match (run f w).ret with
  | some e => { exitCode := 1, stderrOut := ["error: " ++ e ++ "\n"] }
  | none => { exitCode := 0, stderrOut := [] }

/-- Outcomes of the external calls made by `downloadDir`: `os.MkdirAll`,
`cmd.Start()` on the tar process, `client.RecvTar`, and `cmd.Wait()`.
The latter two are plain Go errors (`none` is nil). -/
structure DLWorld where
  mkdirResult : Except String Unit
  tarStartResult : Except String Unit
  recvTarResult : Option String
  tarWaitResult : Option String

/-- Observable actions of one invocation of `downloadDir`. -/
structure DLTrace where
  mkdirCalled : Bool := false
  tarStartCalled : Bool := false
  recvTarCalled : Bool := false

/-- Return value of `downloadDir` (`none` models a nil error) with its
trace. -/
structure DLResult where
  ret : Option String
  trace : DLTrace

/-- `firstErr(errs ...error)`: the first non-nil error, else nil. -/
def firstErr : List (Option String) → Option String
  | [] => none
  | err :: rest =>
    match err with
    | some e => some e
    | none => firstErr rest

/-- Go's `strings.Split(s, ":")` on the character list of `s`: the
substrings between consecutive colons, in order.  Splitting the empty
string yields one empty part, and a string with n colons yields n+1
parts. -/
def splitColon : List Char → List (List Char)
  | [] => [[]]
  | c :: rest =>
    if c = ':' then
      [] :: splitColon rest
    else
      match splitColon rest with
      | [] => [[c]]
      | part :: parts => (c :: part) :: parts

/-- `downloadDir(downloadString, client)`: split on `":"`; anything but
exactly two parts returns nil immediately; otherwise create the destination
directory, start `tar xJ`, stream `client.RecvTar` into it, wait for tar,
and return `firstErr(recvTarErr, tarWaitErr)`. -/
def downloadDir (downloadString : String) (w : DLWorld) : DLResult :=
  if (splitColon downloadString.data).length ≠ 2 then
    { ret := none, trace := {} }
  else
    match w.mkdirResult with
    | .error e =>
      { ret := some ("cannot create artifacts directory: " ++ e)
        trace := { mkdirCalled := true } }
    | .ok _ =>
      match w.tarStartResult with
      | .error e =>
        { ret := some ("cannot start unpacking tar: " ++ e)
          trace := { mkdirCalled := true, tarStartCalled := true } }
      | .ok _ =>
        { ret := firstErr [w.recvTarResult, w.tarWaitResult]
          trace := { mkdirCalled := true, tarStartCalled := true, recvTarCalled := true } }

/-- A baseline flag assignment: every flag at its declared default value. -/
def flags0 : Flags :=
  { verbose := false, vverbose := false, list := false, pass := "", reuse := false,
    reusePid := 0, resend := false, debug := false, noDebug := false, shell := false,
    shellBefore := false, shellAfter := false, abend := false, restore := false,
    discard := false, artifacts := "", logs := "", seed := 0, repeatCount := 0,
    garbageCollect := false, download := "" }

/-- A baseline world in which every external call succeeds. -/
def world0 : World :=
  { args := [], randRead := .ok [0, 1, 2, 3, 4, 5, 6, 7],
    newFilterResult := .ok { Matches := fun _ => true },
    loadResult := .ok (), jobsResult := .ok [], startResult := .ok (),
    waitResult := none, interrupt := false }

/-- Flags setting `-no-debug-output` together with `-shell`. -/
def fND : Flags :=
  { flags0 with noDebug := true, shell := true }

lemma conflictLoop_five (a b c d e : Bool) :
    conflictLoop [a, b, c, d, e] false = true ↔ 2 ≤ ([a, b, c, d, e].count true) := by
  cases a <;> cases b <;> cases c <;> cases d <;> cases e <;> decide

lemma modeConflict_iff (f : Flags) :
    modeConflict f = true ↔ 2 ≤ selCount f := by
  unfold modeConflict selCount modeList
  exact conflictLoop_five _ _ _ _ _

lemma filterStep_snd_true (w : World) (h : (filterStep w).2 = true) : w.args ≠ [] := by
  intro he
  unfold filterStep at h
  rw [he] at h
  simp at h

lemma newFilterCalled_imp (f : Flags) (w : World)
    (h : (run f w).trace.newFilterCalled = true) : (filterStep w).2 = true := by
  cases hm : modeConflict f
  · rcases hp : passwordOf f w with e | p
    · simp [run, hm, hp] at h
    · rcases hfs : filterStep w with ⟨fe | flt, called⟩
      · simp [run, hm, hp, hfs] at h
        exact h
      · rcases hl : w.loadResult with e | ⟨⟩
        · simp [run, hm, hp, hfs, hl] at h
          exact h
        · cases hlist : f.list
          · cases hs : w.startResult
            · simp [run, hm, hp, hfs, hl, hlist, startPhase, hookPhase, downloadPtr, hs] at h
              exact h
            · simp [run, hm, hp, hfs, hl, hlist, startPhase, hookPhase, downloadPtr, hs] at h
              exact h
          · rcases hj : w.jobsResult with e | jobs
            · simp [run, hm, hp, hfs, hl, hlist, hj] at h
              exact h
            · simp [run, hm, hp, hfs, hl, hlist, hj] at h
              exact h
  · simp [run, hm] at h

lemma optionsBuilt_spec (f : Flags) (w : World) (o : Options)
    (h : (run f w).trace.optionsBuilt = some o) :
    ∃ p flt called, passwordOf f w = .ok p ∧ filterStep w = (.ok flt, called) ∧
      o = buildOptions f p flt := by
  cases hm : modeConflict f
  · rcases hp : passwordOf f w with e | p
    · simp [run, hm, hp] at h
    · rcases hfs : filterStep w with ⟨fe | flt, called⟩
      · simp [run, hm, hp, hfs] at h
      · refine ⟨p, flt, called, rfl, rfl, ?_⟩
        rcases hl : w.loadResult with e | ⟨⟩
        · simp [run, hm, hp, hfs, hl] at h
          exact h.symm
        · cases hlist : f.list
          · cases hs : w.startResult
            · simp [run, hm, hp, hfs, hl, hlist, startPhase, hookPhase, downloadPtr, hs] at h
              exact h.symm
            · simp [run, hm, hp, hfs, hl, hlist, startPhase, hookPhase, downloadPtr, hs] at h
              exact h.symm
          · rcases hj : w.jobsResult with e | jobs
            · simp [run, hm, hp, hfs, hl, hlist, hj] at h
              exact h.symm
            · simp [run, hm, hp, hfs, hl, hlist, hj] at h
              exact h.symm
  · simp [run, hm] at h

lemma startOptions_spec (f : Flags) (w : World) (o : Options)
    (h : (run f w).trace.startOptions = some o) :
    f.list = false ∧ w.loadResult = .ok () ∧
    ∃ p flt called, passwordOf f w = .ok p ∧ filterStep w = (.ok flt, called) ∧
      o = discardCoerce (buildOptions f p flt) := by
  cases hm : modeConflict f
  · rcases hp : passwordOf f w with e | p
    · simp [run, hm, hp] at h
    · rcases hfs : filterStep w with ⟨fe | flt, called⟩
      · simp [run, hm, hp, hfs] at h
      · rcases hl : w.loadResult with e | ⟨⟩
        · simp [run, hm, hp, hfs, hl] at h
        · cases hlist : f.list
          · cases hs : w.startResult
            · simp [run, hm, hp, hfs, hl, hlist, startPhase, hookPhase, downloadPtr, hs] at h
              exact ⟨rfl, rfl, p, flt, called, rfl, rfl, h.symm⟩
            · simp [run, hm, hp, hfs, hl, hlist, startPhase, hookPhase, downloadPtr, hs] at h
              exact ⟨rfl, rfl, p, flt, called, rfl, rfl, h.symm⟩
          · rcases hj : w.jobsResult with e | jobs
            · simp [run, hm, hp, hfs, hl, hlist, hj] at h
            · simp [run, hm, hp, hfs, hl, hlist, hj] at h
  · simp [run, hm] at h

/-- Claim C1: whenever more than one of the run-mode selectors Debug, Shell,
ShellBefore-or-ShellAfter, Abend, Restore is set, `run` returns the conflict
error with an empty trace — so before `Start` is invoked and before any Job
is listed or executed; with at most one selector set the exclusivity check
passes. -/
theorem runMode_exclusivity (f : Flags) (w : World) :
    (2 ≤ selCount f → run f w = { ret := some modeConflictMsg, trace := {} }) ∧
    (selCount f ≤ 1 → modeConflict f = false) := by
  constructor
  · intro h
    have hc : modeConflict f = true := (modeConflict_iff f).2 h
    simp [run, hc]
  · intro h
    by_contra hc
    rw [Bool.not_eq_false] at hc
    have := (modeConflict_iff f).1 hc
    omega

/-- Witness for C1: at Shell=true, Abend=true `run` fails with exactly the
conflict error and an empty trace; at all-defaults the check passes. -/
theorem runMode_exclusivity_witness :
    run { flags0 with shell := true, abend := true } world0 =
      { ret := some modeConflictMsg, trace := {} } ∧
    modeConflict flags0 = false :=
  ⟨(runMode_exclusivity { flags0 with shell := true, abend := true } world0).1 (by decide),
   (runMode_exclusivity flags0 world0).2 (by decide)⟩

/-- Claim C2 counterexample: NoDebug=true together with Shell=true is NOT
rejected: the exclusivity check passes and `run` proceeds all the way to a
successful `Start` and `Wait`. -/
theorem noDebug_conflict_counterexample :
    modeConflict fND = false ∧
    (run fND world0).trace.startCalled = true ∧
    (run fND world0).ret = none := by
  refine ⟨rfl, ?_, ?_⟩ <;> rfl

/-- Claim C2 (amended): NoDebug is not one of the mutually exclusive
run-mode selectors: the exclusivity check ignores the NoDebug flag entirely,
and when at most one of the five actual selectors is set the check passes
even with NoDebug=true. -/
theorem noDebug_not_runMode_selector (f : Flags) (b : Bool) :
    modeConflict { f with noDebug := b } = modeConflict f ∧
    (f.noDebug = true → selCount f ≤ 1 → modeConflict f = false) := by
  refine ⟨rfl, ?_⟩
  intro _ h
  by_contra hc
  rw [Bool.not_eq_false] at hc
  have := (modeConflict_iff f).1 hc
  omega

/-- Witness for the amended C2, at NoDebug=true, Shell=true. -/
theorem noDebug_not_runMode_selector_witness :
    modeConflict { fND with noDebug := false } = modeConflict fND ∧
    modeConflict fND = false :=
  ⟨(noDebug_not_runMode_selector fND false).1,
   (noDebug_not_runMode_selector fND false).2 rfl (by decide)⟩

/-- Recognizer for the characters `fmt.Sprintf("%x", ...)` may emit:
decimal digits and the lowercase letters a-f. -/
def isLowerHexDigit (c : Char) : Bool :=
  (decide ((Char.ofNat 48) ≤ c) && decide (c ≤ (Char.ofNat 57))) ||
    (decide ((Char.ofNat 97) ≤ c) && decide (c ≤ (Char.ofNat 102)))

lemma hexDigitChar_lower (n : Nat) (h : n < 16) :
    isLowerHexDigit (hexDigitChar n) = true := by
  interval_cases n <;> decide

lemma hexByte_length (b : Fin 256) : (hexByte b).length = 2 := rfl

lemma hexEncode_length (bs : List (Fin 256)) :
    (hexEncode bs).length = 2 * bs.length := by
  induction bs with
  | nil => rfl
  | cons b rest ih =>
    rw [hexEncode, String.length_append, hexByte_length, ih]
    simp
    omega

lemma hexEncode_lower (bs : List (Fin 256)) :
    ∀ c ∈ (hexEncode bs).data, isLowerHexDigit c = true := by
  induction bs with
  | nil => intro c hc; simp [hexEncode] at hc
  | cons b rest ih =>
    intro c hc
    rw [hexEncode, String.data_append] at hc
    rcases List.mem_append.1 hc with h | h
    · have hb := b.isLt
      have hx : c = hexDigitChar (b.val / 16) ∨ c = hexDigitChar (b.val % 16) := by
        simpa [hexByte] using h
      rcases hx with rfl | rfl
      · exact hexDigitChar_lower _ (by omega)
      · exact hexDigitChar_lower _ (by omega)
    · exact ih c h

/-- Claim C3: when the `-pass` flag is empty and the random source delivers
bytes, the Options carry the lowercase hex encoding of those bytes as the
password (16 characters for 8 bytes); when the random source fails, `run`
fails immediately with the corresponding error; when `-pass` is non-empty,
the password is exactly the flag's value. -/
theorem password_policy (f : Flags) (w : World) :
    (f.pass = "" → ∀ bs, w.randRead = .ok bs →
      ∀ o, (run f w).trace.optionsBuilt = some o →
        o.Password = hexEncode bs ∧ (bs.length = 8 → o.Password.length = 16) ∧
        (∀ c ∈ o.Password.data, isLowerHexDigit c = true)) ∧
    (f.pass = "" → modeConflict f = false → ∀ e, w.randRead = .error e →
      run f w = { ret := some ("cannot generate random password: " ++ e), trace := {} }) ∧
    (¬ f.pass = "" → ∀ o, (run f w).trace.optionsBuilt = some o →
      o.Password = f.pass) := by
  refine ⟨?_, ?_, ?_⟩
  · intro hpass bs hrand o h
    obtain ⟨p, flt, called, hp, -, ho⟩ := optionsBuilt_spec f w o h
    rw [passwordOf, if_pos hpass, hrand] at hp
    have hpw : p = hexEncode bs := (Except.ok.inj hp).symm
    subst ho
    subst hpw
    refine ⟨rfl, ?_, ?_⟩
    · intro h8
      show (hexEncode bs).length = 16
      rw [hexEncode_length, h8]
    · intro c hc
      exact hexEncode_lower bs c hc
  · intro hpass hm e hrand
    simp [run, hm, passwordOf, hpass, hrand]
  · intro hpass o h
    obtain ⟨p, flt, called, hp, -, ho⟩ := optionsBuilt_spec f w o h
    rw [passwordOf, if_neg hpass] at hp
    subst ho
    exact (Except.ok.inj hp).symm

/-- Witness for C3 at all-default flags (empty `-pass`) with bytes 0..7: the
generated password is the 16-character lowercase hex string, and with a
failed random source `run` fails. -/
theorem password_policy_witness :
    ((run flags0 world0).trace.optionsBuilt.getD (buildOptions flags0 "x" none)).Password =
      hexEncode [0, 1, 2, 3, 4, 5, 6, 7] ∧
    (run flags0 { world0 with randRead := .error "eof" }).ret =
      some ("cannot generate random password: " ++ "eof") := by
  constructor
  · have h : (run flags0 world0).trace.optionsBuilt =
        some ((run flags0 world0).trace.optionsBuilt.getD (buildOptions flags0 "x" none)) := rfl
    exact ((password_policy flags0 world0).1 rfl [0, 1, 2, 3, 4, 5, 6, 7] rfl _ h).1
  · rw [(password_policy flags0 { world0 with randRead := .error "eof" }).2.1 rfl rfl "eof" rfl]

/-- Claim C4: with an empty positional pattern list the filter step does not
fail and does not consult `NewFilter`, the resulting `Options.Filter` is the
nil filter that matches every job, and `NewFilter` is consulted only when at
least one pattern is present. -/
theorem empty_patterns_match_all (f : Flags) (w : World) :
    (w.args = [] →
      filterStep w = (.ok none, false) ∧
      ∀ o, (run f w).trace.optionsBuilt = some o →
        o.Filter = none ∧ ∀ j, filterMatches o.Filter j = true) ∧
    ((run f w).trace.newFilterCalled = true → w.args ≠ []) := by
  constructor
  · intro ha
    have hfs : filterStep w = (.ok none, false) := by
      rw [filterStep, ha]
      simp
    refine ⟨hfs, ?_⟩
    intro o h
    obtain ⟨p, flt, called, -, hfs', ho⟩ := optionsBuilt_spec f w o h
    rw [hfs] at hfs'
    have hflt : flt = none := by
      have h1 := congrArg Prod.fst hfs'
      exact (Except.ok.inj h1).symm
    subst ho
    subst hflt
    exact ⟨rfl, fun j => rfl⟩
  · intro h
    exact filterStep_snd_true w (newFilterCalled_imp f w h)

/-- Witness for C4 at the baseline world (no positional arguments). -/
theorem empty_patterns_match_all_witness :
    filterStep world0 = (.ok none, false) ∧
    ((run flags0 world0).trace.optionsBuilt.getD (buildOptions flags0 "x" none)).Filter
      = none := by
  have h : (run flags0 world0).trace.optionsBuilt =
      some ((run flags0 world0).trace.optionsBuilt.getD (buildOptions flags0 "x" none)) := rfl
  have hw := (empty_patterns_match_all flags0 world0).1 rfl
  exact ⟨hw.1, (hw.2 _ h).1⟩

/-- Claim C5: whenever `run` reaches the call to `Start` (a non-list
invocation), the Options handed to `Start` have `Reuse = true` exactly when
Discard is set with `ReusePid = 0`, and otherwise carry the user's `-reuse`
value unchanged. -/
theorem discard_forces_reuse (f : Flags) (w : World) :
    ∀ o, (run f w).trace.startOptions = some o →
      ((f.discard = true ∧ f.reusePid = 0) → o.Reuse = true) ∧
      (¬(f.discard = true ∧ f.reusePid = 0) → o.Reuse = f.reuse) := by
  intro o h
  obtain ⟨-, -, p, flt, called, -, -, ho⟩ := startOptions_spec f w o h
  subst ho
  constructor
  · rintro ⟨hd, hr⟩
    have hcond : ((buildOptions f p flt).Discard && ((buildOptions f p flt).ReusePid == 0)) = true := by
      show (f.discard && (f.reusePid == 0)) = true
      rw [hd, hr]
      decide
    simp only [discardCoerce]
    rw [if_pos hcond]
  · intro hn
    have hcond : (f.discard && (f.reusePid == 0)) = false := by
      cases hd : f.discard
      · simp
      · have hr : ¬ f.reusePid = 0 := fun hr => hn ⟨hd, hr⟩
        simp [hr]
    have hcond' : ((buildOptions f p flt).Discard && ((buildOptions f p flt).ReusePid == 0)) = false := hcond
    have hneg : ¬(((buildOptions f p flt).Discard && ((buildOptions f p flt).ReusePid == 0)) = true) := by
      rw [hcond']
      simp
    simp only [discardCoerce]
    rw [if_neg hneg]
    rfl

/-- Flags setting `-discard` alone (so `ReusePid = 0`, `Reuse = false`). -/
def fD : Flags :=
  { flags0 with discard := true }

/-- Witness for C5: with `-discard` set and `-reuse-pid 0`, the Options that
reach `Start` carry `Reuse = true`. -/
theorem discard_forces_reuse_witness :
    ((run fD world0).trace.startOptions.getD (buildOptions fD "x" none)).Reuse = true := by
  have h : (run fD world0).trace.startOptions =
      some ((run fD world0).trace.startOptions.getD (buildOptions fD "x" none)) := rfl
  exact (discard_forces_reuse fD world0 _ h).1 ⟨rfl, rfl⟩

/-- Claim C6: with `-list` set (and the invocation reaching the list branch:
no mode conflict, password and filter steps succeeded, `Load` succeeded),
`run` calls `Project.Jobs`, prints the returned job names in sequence order,
propagates a `Jobs` error, and returns without calling `Start`, passing
options anywhere, installing the pre-restore hook, waiting, or stopping. -/
theorem list_mode_no_execution (f : Flags) (w : World)
    (hl : f.list = true) (hm : modeConflict f = false)
    (p : String) (hp : passwordOf f w = .ok p)
    (flt : Option Filter) (called : Bool) (hfs : filterStep w = (.ok flt, called))
    (hload : w.loadResult = .ok ()) :
    (run f w).trace.jobsCalled = true ∧
    (∀ e, w.jobsResult = .error e →
      (run f w).ret = some e ∧ (run f w).trace.printedJobs = []) ∧
    (∀ jobs, w.jobsResult = .ok jobs →
      (run f w).ret = none ∧ (run f w).trace.printedJobs = jobs.map Job.Name) ∧
    (run f w).trace.startCalled = false ∧
    (run f w).trace.startOptions = none ∧
    (run f w).trace.hookInstalled = false ∧
    (run f w).trace.waitCalled = false ∧
    (run f w).trace.stopCalled = false := by
  rcases hj : w.jobsResult with e | jobs
  · refine ⟨?_, ?_, ?_, ?_, ?_, ?_, ?_, ?_⟩ <;>
      simp [run, hm, hp, hfs, hload, hl, hj]
  · refine ⟨?_, ?_, ?_, ?_, ?_, ?_, ?_, ?_⟩ <;>
      simp [run, hm, hp, hfs, hload, hl, hj]

/-- Flags selecting `-list` mode. -/
def fL : Flags :=
  { flags0 with list := true }

/-- World in which `Project.Jobs` yields two jobs. -/
def wL : World :=
  { world0 with jobsResult := .ok [{ Name := "a" }, { Name := "b" }] }

/-- Witness for C6: a list invocation prints the two job names and never
calls `Start`. -/
theorem list_mode_no_execution_witness :
    (run fL wL).trace.jobsCalled = true ∧
    (run fL wL).trace.printedJobs = ["a", "b"] ∧
    (run fL wL).trace.startCalled = false := by
  have h := list_mode_no_execution fL wL rfl rfl
    (hexEncode [0, 1, 2, 3, 4, 5, 6, 7]) rfl none false rfl rfl
  exact ⟨h.1, (h.2.2.1 _ rfl).2, h.2.2.2.1⟩

/-- Claim C7: the process exit status is 1 (with the error printed to
stderr) exactly when `run` returns a non-nil error, and 0 with no stderr
output otherwise. -/
theorem exit_status_iff_error (f : Flags) (w : World) :
    ((mainFn f w).exitCode ≠ 0 ↔ (run f w).ret ≠ none) ∧
    ((run f w).ret = none → mainFn f w = { exitCode := 0, stderrOut := [] }) ∧
    (∀ e, (run f w).ret = some e →
      mainFn f w = { exitCode := 1, stderrOut := ["error: " ++ e ++ "\n"] }) := by
  rcases hr : (run f w).ret with _ | e
  · refine ⟨?_, ?_, ?_⟩ <;> simp [mainFn, hr]
  · refine ⟨?_, ?_, ?_⟩ <;> simp [mainFn, hr]

/-- Witness for C7: exit 0 for an all-success invocation; exit 1 with the
conflict error on stderr for an invocation with two run modes set. -/
theorem exit_status_iff_error_witness :
    mainFn flags0 world0 = { exitCode := 0, stderrOut := [] } ∧
    mainFn { flags0 with shell := true, abend := true } world0 =
      { exitCode := 1, stderrOut := ["error: " ++ modeConflictMsg ++ "\n"] } :=
  ⟨(exit_status_iff_error flags0 world0).2.1 rfl,
   (exit_status_iff_error { flags0 with shell := true, abend := true } world0).2.2
     modeConflictMsg rfl⟩

/-- Claim C8: once `Start` has been called and succeeded, `run` calls `Wait`
unconditionally and returns its result, and `Stop` is invoked exactly upon
receipt of an interrupt signal — an interrupt never bypasses `Wait`. -/
theorem wait_follows_start (f : Flags) (w : World)
    (hs : w.startResult = .ok ())
    (hc : (run f w).trace.startCalled = true) :
    (run f w).trace.waitCalled = true ∧
    (run f w).ret = w.waitResult ∧
    ((run f w).trace.stopCalled = true ↔ w.interrupt = true) := by
  cases hm : modeConflict f
  · rcases hp : passwordOf f w with e | p
    · simp [run, hm, hp] at hc
    · rcases hfs : filterStep w with ⟨fe | flt, called⟩
      · simp [run, hm, hp, hfs] at hc
      · rcases hl : w.loadResult with e | ⟨⟩
        · simp [run, hm, hp, hfs, hl] at hc
        · cases hlist : f.list
          · simp [run, hm, hp, hfs, hl, hlist, startPhase, hookPhase, downloadPtr, hs]
          · rcases hj : w.jobsResult with e | jobs
            · simp [run, hm, hp, hfs, hl, hlist, hj] at hc
            · simp [run, hm, hp, hfs, hl, hlist, hj] at hc
  · simp [run, hm] at hc

/-- Witness for C8 at the baseline invocation: `Wait` is called and its nil
result is returned. -/
theorem wait_follows_start_witness :
    (run flags0 world0).trace.waitCalled = true ∧
    (run flags0 world0).ret = world0.waitResult :=
  ⟨(wait_follows_start flags0 world0 rfl rfl).1,
   (wait_follows_start flags0 world0 rfl rfl).2.1⟩

/-- Claim C9: on every non-list invocation that reaches the Load/Start path,
the pre-restore hook is installed unconditionally — the guard compares the
never-nil `download` flag pointer against nil — and the hook wraps
`downloadDir` applied to the flag's value, even when `-download` was never
supplied. -/
theorem preRestore_hook_always_installed (f : Flags) (w : World)
    (hl : f.list = false) (hm : modeConflict f = false)
    (p : String) (hp : passwordOf f w = .ok p)
    (flt : Option Filter) (called : Bool) (hfs : filterStep w = (.ok flt, called))
    (hload : w.loadResult = .ok ()) :
    downloadPtr f ≠ none ∧
    (run f w).trace.hookInstalled = true ∧
    (run f w).trace.hookArg = some f.download := by
  refine ⟨by simp [downloadPtr], ?_, ?_⟩ <;>
    cases hs : w.startResult <;>
      simp [run, hm, hp, hfs, hload, hl, startPhase, hookPhase, downloadPtr, hs]

/-- Witness for C9 at all-default flags, where `-download` was never
supplied (its value is the empty string): the hook is installed anyway. -/
theorem preRestore_hook_always_installed_witness :
    (run flags0 world0).trace.hookInstalled = true ∧
    (run flags0 world0).trace.hookArg = some "" := by
  have h := preRestore_hook_always_installed flags0 world0 rfl rfl
    (hexEncode [0, 1, 2, 3, 4, 5, 6, 7]) rfl none false rfl rfl
  exact ⟨h.2.1, h.2.2⟩

/-- Claim C10: when the download string does not split on `":"` into exactly
two parts, `downloadDir` returns nil without creating a directory, starting
tar, or calling `RecvTar`; with exactly two parts and successful directory
creation and tar start, a `RecvTar` error is returned in preference to any
tar process error. -/
theorem downloadDir_split_guard (s : String) (w : DLWorld) :
    ((splitColon s.data).length ≠ 2 →
      downloadDir s w = { ret := none, trace := {} }) ∧
    ((splitColon s.data).length = 2 →
      w.mkdirResult = .ok () → w.tarStartResult = .ok () →
      ∀ e1, w.recvTarResult = some e1 → (downloadDir s w).ret = some e1) := by
  constructor
  · intro h
    simp [downloadDir, h]
  · intro h hmk hts e1 hrt
    simp [downloadDir, h, hmk, hts, firstErr, hrt]

/-- A download world where both the transfer and the tar process fail. -/
def dlw : DLWorld :=
  { mkdirResult := .ok (), tarStartResult := .ok (),
    recvTarResult := some "recv failed", tarWaitResult := some "tar failed" }

/-- Witness for C10: a colon-free string is a no-op; on `"a:b"` with both
errors present the `RecvTar` error wins. -/
theorem downloadDir_split_guard_witness :
    downloadDir "nocolon" dlw = { ret := none, trace := {} } ∧
    (downloadDir "a:b" dlw).ret = some "recv failed" :=
  ⟨(downloadDir_split_guard "nocolon" dlw).1 (by decide),
   (downloadDir_split_guard "a:b" dlw).2 (by decide) rfl rfl "recv failed" rfl⟩

end Spread
